import Mathlib

/-!
Verification of the conversational-agent orchestration core of this repository.

The definitions below are a shallow embedding of the Python sources:
- `gemini_realtime_chat.py` (class `GeminiRealTimeChat`),
- `langchain_gemini_chatbot.py` (class `LangChainGeminiBot`),
- `gemini_calculator_agent.py` (tools `calculator` and `calculator_num`).

Modelling conventions:
- A backend (LLM) invocation is a pure parameter `llm : List Message → LLMResult`;
  `LLMResult.ok content` models a returned response object and `LLMResult.error e`
  models a raised exception whose `str(e)` is `e`.
- Python floats are modelled as exact rationals (`ℚ`); timestamps are opaque strings
  passed in as a `now` parameter.
- The LangGraph state channels of `ChatState` behave as in the library:
  `messages` carries the `add_messages` reducer (updates append), while
  `conversation_count` and `last_activity` are plain last-value channels
  (updates overwrite).  `graph.invoke(input, config)` with the `MemorySaver`
  checkpointer first applies the input to the checkpointed channels and then
  runs the single `chatbot` node (`START → chatbot → END`).
-/

/-- Message roles, as in `langchain_core.messages`
(`SystemMessage` / `HumanMessage` / `AIMessage`). -/
inductive Role where
  | system
  | user
  | assistant
deriving DecidableEq, Repr

/-- One chat message: a role together with its text content. -/
structure Message where
  role : Role
  content : String
deriving DecidableEq, Repr

/-- Result of one backend invocation: either a response with its content string,
or a raised exception carrying its message. -/
inductive LLMResult where
  | ok (content : String)
  | error (msg : String)
deriving DecidableEq, Repr

/-! ## GeminiRealTimeChat (gemini_realtime_chat.py) -/

/-- The windowing step of `GeminiRealTimeChat.chat_with_gemini`
(gemini_realtime_chat.py lines 112-114):
`if len(h) > 21: h = [h[0]] + h[-20:]`.
Note the source keeps index 0 unconditionally; it never checks its role. -/
def enforceWindow (history : List Message) : List Message :=
  if 21 < history.length then history.take 1 ++ history.drop (history.length - 20)
  else history

/-- The system message installed by `GeminiRealTimeChat.add_system_message`
(gemini_realtime_chat.py lines 95-104). -/
def realtimeSystemText : String :=
  "你是一个友好、智能的AI助手。请用中文回答问题，保持对话自然流畅。\n你可以帮助用户：\n- 回答各种问题\n- 进行创意讨论\n- 解决问题\n- 提供建议和指导\n请保持回答简洁明了，但又足够详细。"

/-- `GeminiRealTimeChat.chat_with_gemini` (gemini_realtime_chat.py lines 106-127).
Returns the conversation history after the call together with the returned text.
The user message is appended and the window enforced before the backend call; on a
non-empty response the assistant message is appended; an empty response or a raised
exception leaves the history without an assistant message. -/
def chat_with_gemini (llm : List Message → LLMResult) (history : List Message)
    (user_input : String) : List Message × String :=
  let h1 := history ++ [⟨Role.user, user_input⟩]
  let h2 := enforceWindow h1
  match llm h2 with
  | .ok content =>
      if content ≠ "" then (h2 ++ [⟨Role.assistant, content⟩], content)
      else (h2, "抱歉，我没有收到有效的回复。请重试。")
  | .error e => (h2, "对话出错: " ++ e ++ "\n请检查网络连接或重试。")

/-- The `clear` command of `GeminiRealTimeChat.start_chat`
(gemini_realtime_chat.py lines 175-179): history is reset to the single system
message and the turn counter to 0. -/
def realtime_clear : List Message × Nat := ([⟨Role.system, realtimeSystemText⟩], 0)

/-! ## LangChainGeminiBot (langchain_gemini_chatbot.py) -/

/-- The LangGraph state (`ChatState` TypedDict, langchain_gemini_chatbot.py
lines 25-30).  The unused `user_info` field is omitted. -/
structure ChatState where
  messages : List Message
  conversationCount : Nat
  lastActivity : String
deriving DecidableEq, Repr

/-- The system prompt of `LangChainGeminiBot.create_prompt_template`
(langchain_gemini_chatbot.py lines 180-196), with the `current_time`
placeholder already substituted. -/
def langSystemPrompt (now : String) : String :=
  "你是一个友好、智能的AI助手，名字叫 LangChain Gemini Bot。\n\n你的特点：\n- 使用中文进行自然流畅的对话\n- 能够记住对话历史和上下文\n- 提供准确、有用的信息和建议\n- 保持专业但友好的语调\n- 可以进行创意讨论和问题解决\n\n当前时间："
    ++ now ++ "\n\n请根据用户的问题提供有帮助的回答。"

/-- The message list the prompt template produces: the formatted system prompt
followed by the state's messages (`MessagesPlaceholder`). -/
def promptMessages (now : String) (messages : List Message) : List Message :=
  ⟨Role.system, langSystemPrompt now⟩ :: messages

/-- The fixed fallback text of the `except` branch of
`LangChainGeminiBot.chatbot_node` (langchain_gemini_chatbot.py line 232). -/
def fallbackNodeMsg : String := "抱歉，我遇到了一些技术问题。请重试或检查网络连接。"

/-- The update a LangGraph node returns: the messages to append (via the
`add_messages` reducer) and the new values of the two last-value channels. -/
structure NodeUpdate where
  newMessages : List Message
  conversationCount : Nat
  lastActivity : String
deriving DecidableEq, Repr

/-- `LangChainGeminiBot.chatbot_node` (langchain_gemini_chatbot.py lines 198-235).
On a successful chain invocation the parsed content string (possibly empty) is
appended as one assistant message and the counter incremented; on a raised
exception a single fixed fallback assistant message is appended and the counter
left unchanged.  In both cases exactly one assistant message is produced. -/
def chatbot_node (llm : List Message → LLMResult) (now : String)
    (state : ChatState) : NodeUpdate :=
  match llm (promptMessages now state.messages) with
  | .ok response => ⟨[⟨Role.assistant, response⟩], state.conversationCount + 1, now⟩
  | .error _ => ⟨[⟨Role.assistant, fallbackNodeMsg⟩], state.conversationCount, now⟩

/-- Application of a node's update to the graph state: `messages` appends
(`add_messages` reducer), the other channels are overwritten (last-value). -/
def applyUpdate (s : ChatState) (u : NodeUpdate) : ChatState :=
  ⟨s.messages ++ u.newMessages, u.conversationCount, u.lastActivity⟩

/-- Application of the caller-supplied input state to the checkpointed channels
(first superstep of `graph.invoke`): input messages are appended to the
checkpointed ones, the last-value channels are overwritten by the input. -/
def mergeInput (checkpoint : Option ChatState) (input : ChatState) : ChatState :=
  match checkpoint with
  | some cp => ⟨cp.messages ++ input.messages, input.conversationCount, input.lastActivity⟩
  | none => input

/-- One `graph.invoke` of the compiled graph of `LangChainGeminiBot.build_graph`
(`START → chatbot → END`, langchain_gemini_chatbot.py lines 256-279): the input
is merged into the checkpointed state, the single node runs, and its update is
applied.  The returned state is also the new checkpoint for the thread. -/
def graphInvoke (llm : List Message → LLMResult) (now : String)
    (checkpoint : Option ChatState) (input : ChatState) : ChatState :=
  let s := mergeInput checkpoint input
  applyUpdate s (chatbot_node llm now s)

/-- Fallback text of `LangChainGeminiBot.process_user_input` when the result
contains no AI message (langchain_gemini_chatbot.py line 305). -/
def noReplyMsg : String := "抱歉，我没有生成有效的回复。"

/-- `LangChainGeminiBot.process_user_input` (langchain_gemini_chatbot.py
lines 281-310).  The initial state passed to `graph.invoke` carries the user
message, `conversation_count = 0` and a fresh timestamp; the response is the
content of the last AI message of the resulting state.  Returns the resulting
(checkpointed) state together with the response text. -/
def process_user_input (llm : List Message → LLMResult) (now : String)
    (checkpoint : Option ChatState) (user_input : String) : ChatState × String :=
  let initial : ChatState := ⟨[⟨Role.user, user_input⟩], 0, now⟩
  let result := graphInvoke llm now checkpoint initial
  let aiMessages := result.messages.filter (fun m => m.role == Role.assistant)
  match aiMessages.getLast? with
  | some m => (result, m.content)
  | none => (result, noReplyMsg)

/-- The statistics record returned by `LangChainGeminiBot.get_conversation_stats`. -/
structure Stats where
  conversationCount : Nat
  lastActivity : String
  messageCount : Nat
deriving DecidableEq, Repr

/-- `LangChainGeminiBot.get_conversation_stats` (langchain_gemini_chatbot.py
lines 312-325): read the checkpointed state of the thread; when none exists
(fresh `MemorySaver`, `values` empty) return the zero/empty defaults. -/
def get_conversation_stats (checkpoint : Option ChatState) : Stats :=
  match checkpoint with
  | some st => ⟨st.conversationCount, st.lastActivity, st.messages.length⟩
  | none => ⟨0, "未知", 0⟩

/-- `LangChainGeminiBot.clear_memory` (langchain_gemini_chatbot.py lines
327-341): a fresh `MemorySaver` is installed and the graph rebuilt, so the
thread afterwards has no checkpoint. -/
def clear_memory : Option ChatState := none

/-! ## Model selection (initialize_llm / initialize_model) -/

/-- Candidate list of `LangChainGeminiBot.initialize_llm`
(langchain_gemini_chatbot.py lines 116-122). -/
def models_to_try : List String :=
  ["gemini-2.5-pro", "gemini-1.5-flash", "gemini-1.5-pro", "gemini-pro",
   "gemini-2.0-flash-exp"]

/-- Candidate list of `GeminiRealTimeChat.initialize_model`
(gemini_realtime_chat.py lines 62-67). -/
def realtime_models_to_try : List String :=
  ["gemini-2.0-flash-exp", "gemini-1.5-flash", "gemini-1.5-pro", "gemini-pro"]

/-- The selection loop shared by `LangChainGeminiBot.initialize_llm`
(langchain_gemini_chatbot.py lines 124-165) and
`GeminiRealTimeChat.initialize_model` (gemini_realtime_chat.py lines 69-86):
iterate the candidate list in order; probe each candidate once with a test
invocation; commit and stop on the first response whose content is non-empty;
on a raised exception (classified only for logging) or an empty response,
continue with the next candidate.  Returns the committed candidate (if any)
together with the ordered list of candidates actually attempted. -/
def init_llm (probe : String → LLMResult) : List String → Option String × List String
  | [] => (none, [])
  | m :: rest =>
    match probe m with
    | .ok c =>
      if c ≠ "" then (some m, [m])
      else
        let r := init_llm probe rest
        (r.1, m :: r.2)
    | .error _ =>
      let r := init_llm probe rest
      (r.1, m :: r.2)

/-- Whether a candidate's single probe succeeds with non-empty content
(`if test_response and test_response.content:`). -/
def probeOk (probe : String → LLMResult) (m : String) : Bool :=
  match probe m with
  | .ok c => decide (c ≠ "")
  | .error _ => false

/-! ## Claim C1 — windowing -/

/-- A history of 22 messages none of which is a system message: the claim
predicts that `enforceWindow` keeps the most recent 21 of them. -/
def c1CexHist : List Message :=
  (List.range 22).map (fun i => ⟨Role.user, String.mk (List.replicate i 'a')⟩)

/-- C1 counterexample: on a 22-message history whose index 0 is a `user`
message (not a system message), the code still retains index 0 plus the most
recent 20 messages; it does not return the most recent 21 messages as the
claim states for a history with no leading system message. -/
theorem C1_counterexample :
    c1CexHist.head?.map Message.role = some Role.user ∧
    enforceWindow c1CexHist = c1CexHist.take 1 ++ c1CexHist.drop 2 ∧
    enforceWindow c1CexHist ≠ c1CexHist.drop 1 := by decide

/-- C1 (amended): the window size is hardcoded to 21 and index 0 is retained
unconditionally, regardless of its role: if `len(h) ≤ 21` the operation is a
no-op; otherwise the result has exactly 21 messages, starts with the original
index 0, continues with the 20 most recent messages, and is a sublist of the
original history (original relative order preserved). -/
theorem C1_enforceWindow_amended (h : List Message) :
    (h.length ≤ 21 → enforceWindow h = h) ∧
    (21 < h.length →
      (enforceWindow h).length = 21 ∧
      (enforceWindow h).head? = h.head? ∧
      (enforceWindow h).tail = h.drop (h.length - 20) ∧
      List.Sublist (enforceWindow h) h) := by
  constructor
  · intro hle
    unfold enforceWindow
    rw [if_neg (by omega)]
  · intro hgt
    obtain ⟨a, t, rfl⟩ : ∃ a t, h = a :: t := by
      cases h with
      | nil => simp at hgt
      | cons a t => exact ⟨a, t, rfl⟩
    have ht : 20 < t.length := by simp at hgt; omega
    unfold enforceWindow
    rw [if_pos hgt]
    have htake : (a :: t).take 1 = [a] := rfl
    have hsub : (a :: t).length - 20 = (t.length - 20) + 1 := by simp; omega
    have hdrop : (a :: t).drop ((a :: t).length - 20) = t.drop (t.length - 20) := by
      rw [hsub, List.drop_succ_cons]
    refine ⟨?_, ?_, ?_, ?_⟩
    · rw [htake, hdrop]
      simp [List.length_drop]
      omega
    · rw [htake, hdrop]
      rfl
    · rw [htake, hdrop]
      rfl
    · rw [htake, hdrop]
      exact List.Sublist.cons₂ a (List.drop_sublist _ _)

/-- The spec's concrete example history: 1 system message followed by 30
other messages. -/
def c1ExampleHist : List Message :=
  ⟨Role.system, "sys"⟩ ::
    (List.range 30).map (fun i => ⟨Role.user, String.mk (List.replicate i 'b')⟩)

/-- C1 witness: the amended theorem applied to the spec's example of 1 system
message + 30 others: the result has 21 messages, message 0 is the system
message and messages 1..20 are the 20 most recent originals in order. -/
theorem C1_witness :
    21 < c1ExampleHist.length ∧
    (enforceWindow c1ExampleHist).length = 21 ∧
    (enforceWindow c1ExampleHist).head? = some ⟨Role.system, "sys"⟩ ∧
    (enforceWindow c1ExampleHist).tail = c1ExampleHist.drop 11 := by
  have h := C1_enforceWindow_amended c1ExampleHist
  refine ⟨by decide, ((h.2 (by decide)).1), ?_, ?_⟩
  · rw [(h.2 (by decide)).2.1]
    decide
  · rw [(h.2 (by decide)).2.2.1]
    decide

/-! ## Claim C2 — turn counter -/

/-- A backend that always answers successfully. -/
def c2Llm : List Message → LLMResult := fun _ => .ok "回复"

/-- C2 evaluation at the failing input: two sequential successful
`process_user_input` calls on the same (initially fresh) thread.  Because the
initial state passed to `graph.invoke` carries `conversation_count = 0` and
that channel has no reducer, the checkpointed counter value is overwritten to
0 before the node increments: after the first turn the counter is 1, and after
the second turn it is still 1 (not 2).  The message count does grow (2 then
4), so it never decreases. -/
theorem C2_counter_reset_eval :
    ((process_user_input c2Llm "t1" none "q1").1.conversationCount = 1) ∧
    ((process_user_input c2Llm "t2"
        (some (process_user_input c2Llm "t1" none "q1").1) "q2").1.conversationCount = 1) ∧
    ((process_user_input c2Llm "t1" none "q1").1.messages.length = 2) ∧
    ((process_user_input c2Llm "t2"
        (some (process_user_input c2Llm "t1" none "q1").1) "q2").1.messages.length = 4) := by
  decide

/-! ## Claim C5 — PermissionDenied is skipped with no retry -/

/-- Probe in which the first candidate fails with a permission error, the
second succeeds, and later candidates would fail. -/
def c5Probe (m : String) : LLMResult :=
  if m = "gemini-2.5-pro" then .error "PERMISSION_DENIED"
  else if m = "gemini-1.5-flash" then .ok "Hi"
  else .error "UNAVAILABLE"

/-- C5: with candidates `[A: fails with PERMISSION_DENIED, B: succeeds, ...]`,
selection makes exactly 2 attempts in total — A once (skipped immediately,
no retry) and B once — and commits B's handle. -/
theorem C5_permission_denied_two_attempts :
    init_llm c5Probe models_to_try =
      (some "gemini-1.5-flash", ["gemini-2.5-pro", "gemini-1.5-flash"]) ∧
    (init_llm c5Probe models_to_try).2.length = 2 := by decide

/-! ## Claim C7 — end-to-end seeded turn -/

/-- Memory seeded with only the system message "You are helpful.". -/
def c7Seed : ChatState := ⟨[⟨Role.system, "You are helpful."⟩], 0, "t0"⟩

/-- C7: starting from memory seeded with only the system message
"You are helpful.", one successful turn with input "2+2?" leaves memory with
exactly 3 messages in order (system, user, assistant) and the turn counter
equal to 1; the same holds for the realtime chat's history. -/
theorem C7_end_to_end :
    (process_user_input (fun _ => .ok "4") "t1" (some c7Seed) "2+2?").1 =
      ⟨[⟨Role.system, "You are helpful."⟩, ⟨Role.user, "2+2?"⟩,
        ⟨Role.assistant, "4"⟩], 1, "t1"⟩ ∧
    (process_user_input (fun _ => .ok "4") "t1" (some c7Seed) "2+2?").2 = "4" ∧
    (chat_with_gemini (fun _ => .ok "4") [⟨Role.system, "You are helpful."⟩] "2+2?").1 =
      [⟨Role.system, "You are helpful."⟩, ⟨Role.user, "2+2?"⟩,
       ⟨Role.assistant, "4"⟩] := by decide

/-! ## Claim C8 — reset then stats -/

/-- C8: after `clear_memory` the thread has no checkpoint, so
`get_conversation_stats` returns turn count 0 and message count 0 (within the
claimed 0-or-1); `get_conversation_stats` defaults to zeros/empty whenever no
checkpoint exists; the realtime chat's `clear` command reseeds exactly one
system message and resets its counter to 0. -/
theorem C8_reset_then_stats :
    get_conversation_stats clear_memory = ⟨0, "未知", 0⟩ ∧
    (get_conversation_stats clear_memory).conversationCount = 0 ∧
    (get_conversation_stats clear_memory).messageCount = 0 ∧
    get_conversation_stats none = ⟨0, "未知", 0⟩ ∧
    realtime_clear.1.map Message.role = [Role.system] ∧
    realtime_clear.2 = 0 := by decide

/-! ## Claim C3 — processTurn never raises; failure text -/

/-- The filtered AI-message list of a history ending in an assistant message
ends in exactly that message. -/
theorem getLast?_filter_assistant (l : List Message) (m : Message)
    (hm : m.role = Role.assistant) :
    ((l ++ [m]).filter (fun x => x.role == Role.assistant)).getLast? = some m := by
  have h1 : (l ++ [m]).filter (fun x => x.role == Role.assistant)
      = l.filter (fun x => x.role == Role.assistant) ++ [m] := by
    rw [List.filter_append]
    simp [hm]
  rw [h1]
  exact List.getLast?_concat _

/-- C3 counterexample: in `GeminiRealTimeChat.chat_with_gemini` the
user-visible failure text embeds the raw backend error string (here
"SECRET_TOKEN") and therefore depends on it — it is not generic. -/
theorem C3_counterexample :
    (chat_with_gemini (fun _ => .error "SECRET_TOKEN") [] "hi").2
      = "对话出错: " ++ "SECRET_TOKEN" ++ "\n请检查网络连接或重试。" ∧
    (chat_with_gemini (fun _ => .error "SECRET_TOKEN") [] "hi").2
      ≠ (chat_with_gemini (fun _ => .error "OTHER") [] "hi").2 := by decide

/-- C3 (amended): both entry points catch every backend failure and return a
string.  In the LangGraph bot the returned text is either the backend's own
response content or the fixed generic fallback, never the backend error
string; in the realtime chat, however, the failure text is
`"对话出错: " ++ e ++ ...`, embedding the raw backend error string `e`. -/
theorem C3_amended :
    (∀ (llm : List Message → LLMResult) (now : String) (cp : Option ChatState)
        (input : String),
       (∃ c, llm (promptMessages now (mergeInput cp ⟨[⟨Role.user, input⟩], 0, now⟩).messages)
               = .ok c ∧ (process_user_input llm now cp input).2 = c) ∨
       (process_user_input llm now cp input).2 = fallbackNodeMsg) ∧
    (∀ (llm : List Message → LLMResult) (history : List Message) (input e : String),
       llm (enforceWindow (history ++ [⟨Role.user, input⟩])) = .error e →
       (chat_with_gemini llm history input).2
         = "对话出错: " ++ e ++ "\n请检查网络连接或重试。") := by
  constructor
  · intro llm now cp input
    unfold process_user_input graphInvoke applyUpdate chatbot_node
    dsimp only
    cases hl : llm (promptMessages now (mergeInput cp ⟨[⟨Role.user, input⟩], 0, now⟩).messages) with
    | ok c =>
      left
      refine ⟨c, rfl, ?_⟩
      dsimp only
      rw [getLast?_filter_assistant _ _ rfl]
    | error e =>
      right
      dsimp only
      rw [getLast?_filter_assistant _ _ rfl]
  · intro llm history input e hl
    unfold chat_with_gemini
    dsimp only
    rw [hl]

/-- C3 witness: the amended theorem applied at a concrete failing backend. -/
theorem C3_witness :
    (chat_with_gemini (fun _ => .error "E1") [] "hi").2
      = "对话出错: " ++ "E1" ++ "\n请检查网络连接或重试。" :=
  C3_amended.2 (fun _ => .error "E1") [] "hi" "E1" rfl

/-! ## Claim C4 — first-success selection -/

/-- Unfolding of one selection step in terms of `probeOk`. -/
theorem init_llm_cons (probe : String → LLMResult) (m : String) (rest : List String) :
    init_llm probe (m :: rest) =
      if probeOk probe m then (some m, [m])
      else ((init_llm probe rest).1, m :: (init_llm probe rest).2) := by
  cases hp : probe m with
  | ok c =>
    by_cases hc : c = ""
    · subst hc
      simp [init_llm, probeOk, hp]
    · simp [init_llm, probeOk, hp, hc]
  | error e => simp [init_llm, probeOk, hp]

/-- C4: selection commits exactly the first candidate whose probe returns
non-empty content; the attempted candidates are precisely the failing prefix
followed by that first success, in list order — so no candidate after the
first success is ever attempted — and the attempts form a sublist of the
candidate list with no candidate attempted twice (no retry after a success). -/
theorem C4_selection (probe : String → LLMResult) (cands : List String) :
    (init_llm probe cands).1 = cands.find? (probeOk probe) ∧
    (init_llm probe cands).2 =
      cands.takeWhile (fun m => !probeOk probe m) ++ (cands.find? (probeOk probe)).toList ∧
    List.Sublist (init_llm probe cands).2 cands ∧
    (cands.Nodup → (init_llm probe cands).2.Nodup) := by
  induction cands with
  | nil => simp [init_llm]
  | cons m rest ih =>
    obtain ⟨ih1, ih2, ih3, ih4⟩ := ih
    rw [init_llm_cons]
    by_cases hm : probeOk probe m
    · rw [if_pos hm]
      refine ⟨?_, ?_, ?_, ?_⟩
      · rw [List.find?_cons_of_pos _ hm]
      · rw [List.find?_cons_of_pos _ hm, List.takeWhile_cons_of_neg (by simp [hm])]
        rfl
      · exact List.Sublist.cons₂ m (List.nil_sublist rest)
      · intro _
        simp
    · rw [if_neg hm]
      have hmf : probeOk probe m = false := by
        cases h : probeOk probe m
        · rfl
        · exact absurd h hm
      refine ⟨?_, ?_, ?_, ?_⟩
      · rw [List.find?_cons_of_neg _ (by simp [hmf])]
        exact ih1
      · rw [List.find?_cons_of_neg _ (by simp [hmf]),
            List.takeWhile_cons_of_pos (by simp [hmf])]
        simp only [List.cons_append]
        rw [← ih2]
      · exact List.Sublist.cons₂ m ih3
      · intro hnd
        rw [List.nodup_cons] at hnd ⊢
        refine ⟨fun hmem => hnd.1 (ih3.mem hmem), ih4 hnd.2⟩

/-- C4 witness: selection over the realtime candidate list with a probe whose
first candidate fails and whose second succeeds: the attempted candidates are
exactly the first two (nothing after the success is attempted, none twice)
and the second candidate's handle is committed. -/
theorem C4_witness :
    (init_llm c5Probe realtime_models_to_try).1 = some "gemini-1.5-flash" ∧
    (init_llm c5Probe realtime_models_to_try).2
      = ["gemini-2.0-flash-exp", "gemini-1.5-flash"] ∧
    (init_llm c5Probe realtime_models_to_try).2.Nodup := by
  have h := C4_selection c5Probe realtime_models_to_try
  refine ⟨?_, ?_, h.2.2.2 (by decide)⟩
  · rw [h.1]
    decide
  · rw [h.2.1]
    decide

/-! ## Claim C6 — the processing node -/

/-- The node always produces exactly one message, of role assistant. -/
theorem chatbot_node_one_message (llm : List Message → LLMResult) (now : String)
    (s : ChatState) :
    (chatbot_node llm now s).newMessages.length = 1 ∧
    ∀ m ∈ (chatbot_node llm now s).newMessages, m.role = Role.assistant := by
  unfold chatbot_node
  cases llm (promptMessages now s.messages) <;> simp

/-- C6 counterexample: on an empty backend response,
`LangChainGeminiBot.chatbot_node` appends the empty string verbatim as the
assistant message; it does not synthesize the fixed fallback message as the
claim requires for the empty-response failure case. -/
theorem C6_counterexample :
    (chatbot_node (fun _ => .ok "") "t" ⟨[], 0, "t"⟩).newMessages
      = [⟨Role.assistant, ""⟩] ∧
    (chatbot_node (fun _ => .ok "") "t" ⟨[], 0, "t"⟩).newMessages
      ≠ [⟨Role.assistant, fallbackNodeMsg⟩] := by decide

/-- C6 (amended): for every input state, `LangChainGeminiBot.chatbot_node`
appends exactly one assistant message; on a raised internal failure (timeout,
transport error) it synthesizes the fixed, non-leaking fallback message; an
empty backend response is appended verbatim as an (empty) assistant message
rather than replaced by the fallback; and one graph invocation
(`START → chatbot → END`) always terminates with exactly one message added. -/
theorem C6_node_amended (llm : List Message → LLMResult) (now : String)
    (state : ChatState) :
    (chatbot_node llm now state).newMessages.length = 1 ∧
    (∀ m ∈ (chatbot_node llm now state).newMessages, m.role = Role.assistant) ∧
    (∀ e, llm (promptMessages now state.messages) = .error e →
      (chatbot_node llm now state).newMessages = [⟨Role.assistant, fallbackNodeMsg⟩]) ∧
    (∀ cp, (graphInvoke llm now cp state).messages.length
        = (mergeInput cp state).messages.length + 1) := by
  refine ⟨(chatbot_node_one_message llm now state).1,
          (chatbot_node_one_message llm now state).2, ?_, ?_⟩
  · intro e he
    unfold chatbot_node
    rw [he]
  · intro cp
    unfold graphInvoke applyUpdate
    simp [(chatbot_node_one_message llm now (mergeInput cp state)).1]

/-- C6 witness: the amended theorem at a concrete raising backend. -/
theorem C6_witness :
    (chatbot_node (fun _ => .error "boom") "t" ⟨[], 0, "t"⟩).newMessages
      = [⟨Role.assistant, fallbackNodeMsg⟩] ∧
    (chatbot_node (fun _ => .error "boom") "t" ⟨[], 0, "t"⟩).newMessages.length = 1 := by
  have h := C6_node_amended (fun _ => .error "boom") "t" ⟨[], 0, "t"⟩
  exact ⟨h.2.2.1 "boom" rfl, h.1⟩

/-! ## Claim C9 — checkpoint versioning -/

/-- Failure kind of a rejected checkpoint save. -/
inductive CkError where
  | VersionConflict
deriving DecidableEq, Repr

/-- Modelled from the spec: the repository delegates checkpointing to the
external `langgraph` `MemorySaver` (langchain_gemini_chatbot.py line 39); the
`CheckpointStore.save(threadId, state, expectedVersion)` contract of spec §4.4
(optimistic versioning, `VersionConflict`) is not itself present under `src/`.
A store maps each thread id to its current state and version (version 0 when
never written). -/
def CheckpointStore := String → ChatState × Nat

/-- Modelled from the spec: the store's current version for a thread. -/
def ckVersion (store : CheckpointStore) (tid : String) : Nat := (store tid).2

/-- Modelled from the spec: `save(threadId, state, expectedVersion)` succeeds
and bumps the thread's version by one exactly when `expectedVersion` matches
the store's current version for that thread; otherwise it fails with
`VersionConflict` and leaves the store unchanged.  Returns the (possibly
unchanged) store together with the outcome. -/
def ckSave (store : CheckpointStore) (tid : String) (st : ChatState)
    (expectedVersion : Nat) : CheckpointStore × Except CkError Nat :=
  if expectedVersion = ckVersion store tid then
    ((fun t => if t = tid then (st, ckVersion store tid + 1) else store t),
     Except.ok (ckVersion store tid + 1))
  else (store, Except.error CkError.VersionConflict)

/-- C9: a successful save strictly increases the thread's version (by exactly
one), and a save whose expected version does not match the store's current
version fails with `VersionConflict` and leaves every thread's stored entry
unchanged. -/
theorem C9_checkpoint_versioning (store : CheckpointStore) (tid : String)
    (st : ChatState) (ev : Nat) :
    (ev = ckVersion store tid →
       (ckSave store tid st ev).2 = Except.ok (ckVersion store tid + 1) ∧
       ckVersion (ckSave store tid st ev).1 tid = ckVersion store tid + 1 ∧
       ckVersion store tid < ckVersion (ckSave store tid st ev).1 tid) ∧
    (ev ≠ ckVersion store tid →
       (ckSave store tid st ev).2 = Except.error CkError.VersionConflict ∧
       ∀ t, (ckSave store tid st ev).1 t = store t) := by
  constructor
  · intro hv
    unfold ckSave
    rw [if_pos hv]
    refine ⟨rfl, ?_, ?_⟩
    · simp [ckVersion]
    · simp [ckVersion]
  · intro hv
    unfold ckSave
    rw [if_neg hv]
    exact ⟨rfl, fun t => rfl⟩

/-- The store before any write: every thread at version 0 with empty state. -/
def emptyCkStore : CheckpointStore := fun _ => (⟨[], 0, ""⟩, 0)

/-- C9 witness: on the empty store, a save with matching expected version 0
succeeds with new version 1; a save with stale expected version 5 fails with
`VersionConflict` and leaves the store unchanged. -/
theorem C9_witness :
    (ckSave emptyCkStore "main_conversation" ⟨[], 0, "t"⟩ 0).2 = Except.ok 1 ∧
    ckVersion (ckSave emptyCkStore "main_conversation" ⟨[], 0, "t"⟩ 0).1
      "main_conversation" = 1 ∧
    (ckSave emptyCkStore "main_conversation" ⟨[], 0, "t"⟩ 5).2
      = Except.error CkError.VersionConflict ∧
    (ckSave emptyCkStore "main_conversation" ⟨[], 0, "t"⟩ 5).1 "other"
      = emptyCkStore "other" := by
  have h0 := C9_checkpoint_versioning emptyCkStore "main_conversation" ⟨[], 0, "t"⟩ 0
  have h5 := C9_checkpoint_versioning emptyCkStore "main_conversation" ⟨[], 0, "t"⟩ 5
  exact ⟨(h0.1 rfl).1, (h0.1 rfl).2.1, (h5.2 (by decide)).1, (h5.2 (by decide)).2 "other"⟩

/-! ## Calculator tools (gemini_calculator_agent.py)

The `calculator` tool parses its input with the regex
`^\s*(-?\d+\.?\d*)\s*([+\-*\/])\s*(-?\d+\.?\d*)\s*$` (after stripping leading and
trailing quote characters) and computes with Python floats; floats are modelled
as exact rationals.  The character classes are modelled over ASCII codes
(`\d` = 48..57, `\s` = space/tab/newline/return/vertical-tab/formfeed); the
regex is deterministic on this pattern (no backtracking can produce a different
match), so it is embedded as a maximal-munch parser. -/

/-- ASCII digit test (`\d`). -/
def pyDigit (c : Char) : Bool := decide (48 ≤ c.toNat ∧ c.toNat ≤ 57)

/-- ASCII whitespace test (`\s`). -/
def isPySpace (c : Char) : Bool :=
  decide (c.toNat = 32 ∨ c.toNat = 9 ∨ c.toNat = 10 ∨ c.toNat = 13 ∨
          c.toNat = 11 ∨ c.toNat = 12)

/-- Single or double quote, the characters removed by `expression.strip` in
the source (codes 39 and 34). -/
def isQuoteChar (c : Char) : Bool := decide (c.toNat = 39 ∨ c.toNat = 34)

/-- `expression.strip` with the quote character set: remove all leading and
trailing quote characters. -/
def stripQuotes (cs : List Char) : List Char :=
  ((cs.dropWhile isQuoteChar).reverse.dropWhile isQuoteChar).reverse

/-- The optional leading minus sign (`-?`, code 45). -/
def parseSign (cs : List Char) : Bool × List Char :=
  match cs with
  | c :: t => if c.toNat = 45 then (true, t) else (false, cs)
  | [] => (false, [])

/-- Numeric value of a digit string. -/
def digitsVal (ds : List Char) : ℕ := ds.foldl (fun a c => 10 * a + (c.toNat - 48)) 0

/-- Value of a parsed literal `[-]ip[.fp]`, as `float()` computes it
(modelled exactly in `ℚ`). -/
def litVal (neg : Bool) (ip fp : List Char) : ℚ :=
  let v : ℚ := (digitsVal ip : ℚ) + (digitsVal fp : ℚ) / (10 : ℚ) ^ fp.length
  if neg then -v else v

/-- One number group `-?\d+\.?\d*`: optional sign, one or more digits,
optionally a dot (code 46) followed by zero or more digits.  Returns the
value and the remaining input, or `none` when no digits are present. -/
def parseNum (cs : List Char) : Option (ℚ × List Char) :=
  let s := parseSign cs
  let ip := s.2.takeWhile pyDigit
  let rest := s.2.dropWhile pyDigit
  if ip = [] then none
  else
    match rest with
    | c :: t =>
      if c.toNat = 46 then
        some (litVal s.1 ip (t.takeWhile pyDigit), t.dropWhile pyDigit)
      else some (litVal s.1 ip [], rest)
    | [] => some (litVal s.1 ip [], [])

/-- The operator character class `[+\-*\/]`. -/
def opChars : List Char := ['+', '-', '*', '/']

/-- The full anchored regex `^\s*(-?\d+\.?\d*)\s*([+\-*\/])\s*(-?\d+\.?\d*)\s*$`. -/
def parseExpr (cs0 : List Char) : Option (ℚ × Char × ℚ) :=
  match parseNum (cs0.dropWhile isPySpace) with
  | none => none
  | some (a, cs1) =>
    match cs1.dropWhile isPySpace with
    | [] => none
    | op :: cs2 =>
      if op ∈ opChars then
        match parseNum (cs2.dropWhile isPySpace) with
        | none => none
        | some (b, cs3) =>
          if cs3.dropWhile isPySpace = [] then some (a, op, b) else none
      else none

/-- Result of a calculator tool call: a number, a string (Python string
concatenation result), or an error message string.  The tools always return
one of these; they never raise. -/
inductive CalcResult where
  | num (q : ℚ)
  | strv (s : String)
  | err (m : String)
deriving DecidableEq, Repr

/-- Error string for an input not matching the expression format. -/
def fmtErrMsg : String := "错误：无效的表达式格式。请输入\x27数字 运算符 数字\x27格式的字符串。"

/-- Error string for division by zero (both tools). -/
def divErrMsg : String := "错误：不能除以零"

/-- Error string of `calculator` for an invalid operator (unreachable after a
regex match, kept as in the source). -/
def badOpMsg : String := "错误：无效的运算符"

/-- Error string of `calculator_num` for an invalid operation. -/
def badOperationMsg : String := "错误：无效的操作"

/-- The `calculator` tool (gemini_calculator_agent.py lines 21-60): strip
quotes, match the regex, return an error string when the format does not
match; dispatch on the operator, guard division by zero, and otherwise return
the exact arithmetic result. -/
def calculator (expression : String) : CalcResult :=
  match parseExpr (stripQuotes expression.toList) with
  | none => .err fmtErrMsg
  | some (a, op, b) =>
    if op = '+' then .num (a + b)
    else if op = '-' then .num (a - b)
    else if op = '*' then .num (a * b)
    else if op = '/' then
      if b = 0 then .err divErrMsg else .num (a / b)
    else .err badOpMsg

/-- A parsed JSON value as seen by `calculator_num`.  JSON numbers are
modelled as exact rationals and JSON strings as strings; booleans, null,
arrays and objects are collapsed into `other`, whose arithmetic is modelled
through the tool's caught-`TypeError` branch (exact for null/arrays/objects;
JSON booleans, which Python would treat as integers, are not exercised by any
claim). -/
inductive JVal where
  | num (q : ℚ)
  | str (s : String)
  | other
deriving DecidableEq, Repr

/-- Prefix of all error strings produced by the `except` clause of
`calculator_num` (`f"错误：解析输入或计算时出错 - {e}"`); the suffix names the
exception. -/
def numToolErrPrefix : String := "错误：解析输入或计算时出错 - "

/-- Python `a + b` on JSON values: numeric addition, string concatenation, and
otherwise a `TypeError` caught by the tool's `except` clause. -/
def jvalAdd : JVal → JVal → CalcResult
  | .num a, .num b => .num (a + b)
  | .str a, .str b => .strv (a ++ b)
  | _, _ => .err (numToolErrPrefix ++ "TypeError")

/-- Python `a - b` on JSON values. -/
def jvalSub : JVal → JVal → CalcResult
  | .num a, .num b => .num (a - b)
  | _, _ => .err (numToolErrPrefix ++ "TypeError")

/-- Python `a * b` on JSON values (string repetition is collapsed into the
caught-`TypeError` branch; no claim exercises it). -/
def jvalMul : JVal → JVal → CalcResult
  | .num a, .num b => .num (a * b)
  | _, _ => .err (numToolErrPrefix ++ "TypeError")

/-- `if b == 0: return 错误：不能除以零` followed by Python `a / b`: the zero
test compares against the number 0 before any division is attempted. -/
def jvalDiv (a b : JVal) : CalcResult :=
  if b = .num 0 then .err divErrMsg
  else
    match a, b with
    | .num x, .num y => .num (x / y)
    | _, _ => .err (numToolErrPrefix ++ "TypeError")

/-- Dictionary lookup `params[k]` on the parsed JSON object. -/
def lookupKey (obj : List (String × JVal)) (k : String) : Option JVal :=
  (obj.find? (fun p => p.1 == k)).map (fun p => p.2)

/-- The `calculator_num` tool (gemini_calculator_agent.py lines 62-88).
`json.loads` is an external library function, abstracted as the `loads`
parameter (`none` models a raised `JSONDecodeError`); a missing key raises
`KeyError`, caught by the tool's `except` clause; the operation is compared
against the four operator strings (a non-string operation compares unequal to
all of them, as in Python). -/
def calculator_num (loads : String → Option (List (String × JVal)))
    (data : String) : CalcResult :=
  match loads data with
  | none => .err (numToolErrPrefix ++ "JSONDecodeError")
  | some params =>
    match lookupKey params "a", lookupKey params "b", lookupKey params "operation" with
    | some a, some b, some operation =>
      match operation with
      | .str o =>
        if o = "+" then jvalAdd a b
        else if o = "-" then jvalSub a b
        else if o = "*" then jvalMul a b
        else if o = "/" then jvalDiv a b
        else .err badOperationMsg
      | _ => .err badOperationMsg
    | _, _, _ => .err (numToolErrPrefix ++ "KeyError")

/-! ### Well-formed inputs of `calculator` -/

/-- A number literal as matched by the group `-?\d+\.?\d*`: an optional sign,
the integer digits, and optionally a fractional digit list (present exactly
when the literal contains a dot). -/
structure NumLit where
  neg : Bool
  ip : List Char
  fp : Option (List Char)
deriving DecidableEq, Repr

/-- The literal's text. -/
def NumLit.render (n : NumLit) : List Char :=
  (if n.neg then ['-'] else []) ++
    (n.ip ++ (match n.fp with
              | none => []
              | some f => '.' :: f))

/-- The literal's numeric value. -/
def NumLit.val (n : NumLit) : ℚ := litVal n.neg n.ip (n.fp.getD [])

/-- Well-formedness: at least one integer digit, and only digits in both
digit lists. -/
def NumLit.wf (n : NumLit) : Prop :=
  n.ip ≠ [] ∧ (∀ c ∈ n.ip, pyDigit c = true) ∧ (∀ c ∈ n.fp.getD [], pyDigit c = true)

instance (n : NumLit) : Decidable n.wf := by
  unfold NumLit.wf
  exact inferInstance

/-- A list of whitespace characters. -/
def SpacesOnly (w : List Char) : Prop := ∀ c ∈ w, isPySpace c = true

instance (w : List Char) : Decidable (SpacesOnly w) := by
  unfold SpacesOnly
  exact inferInstance

/-- The text of a well-formed calculator input:
`\s* lit1 \s* op \s* lit2 \s*`. -/
def wfRender (w0 : List Char) (n1 : NumLit) (w1 : List Char) (op : Char)
    (w2 : List Char) (n2 : NumLit) (w3 : List Char) : List Char :=
  w0 ++ (n1.render ++ (w1 ++ (op :: (w2 ++ (n2.render ++ w3)))))

/-- The arithmetic operation selected by an operator character. -/
def applyOp (op : Char) (a b : ℚ) : ℚ :=
  if op = '+' then a + b
  else if op = '-' then a - b
  else if op = '*' then a * b
  else a / b

/-! ### Character-class and scanning lemmas -/

/-- A whitespace character is not a digit. -/
theorem space_not_digit {c : Char} (h : isPySpace c = true) : pyDigit c = false := by
  simp only [isPySpace, decide_eq_true_eq] at h
  simp only [pyDigit, decide_eq_false_iff_not]
  omega

/-- A whitespace character is not the dot (code 46). -/
theorem space_not_dot {c : Char} (h : isPySpace c = true) : c.toNat ≠ 46 := by
  simp only [isPySpace, decide_eq_true_eq] at h
  omega

/-- A whitespace character is not a quote. -/
theorem space_not_quote {c : Char} (h : isPySpace c = true) : isQuoteChar c = false := by
  simp only [isPySpace, decide_eq_true_eq] at h
  simp only [isQuoteChar, decide_eq_false_iff_not]
  omega

/-- A digit is not a quote. -/
theorem digit_not_quote {c : Char} (h : pyDigit c = true) : isQuoteChar c = false := by
  simp only [pyDigit, decide_eq_true_eq] at h
  simp only [isQuoteChar, decide_eq_false_iff_not]
  omega

/-- A digit is not whitespace. -/
theorem digit_not_space {c : Char} (h : pyDigit c = true) : isPySpace c = false := by
  simp only [pyDigit, decide_eq_true_eq] at h
  simp only [isPySpace, decide_eq_false_iff_not]
  omega

/-- A digit is not the minus sign (code 45). -/
theorem digit_ne_45 {c : Char} (h : pyDigit c = true) : c.toNat ≠ 45 := by
  simp only [pyDigit, decide_eq_true_eq] at h
  omega

/-- All facts about an operator character needed by the parser proofs. -/
theorem opChar_facts {op : Char} (hop : op ∈ opChars) :
    pyDigit op = false ∧ isPySpace op = false ∧ op.toNat ≠ 46 ∧ isQuoteChar op = false := by
  simp only [opChars, List.mem_cons, List.not_mem_nil, or_false] at hop
  rcases hop with rfl | rfl | rfl | rfl <;> exact ⟨by decide, by decide, by decide, by decide⟩

/-- `takeWhile` over a concatenation whose first block satisfies the predicate
and whose second block starts with a failing element. -/
theorem takeWhile_append_eq (p : Char → Bool) (xs ys : List Char)
    (hx : ∀ c ∈ xs, p c = true) (hy : ∀ c, ys.head? = some c → p c = false) :
    (xs ++ ys).takeWhile p = xs := by
  induction xs with
  | nil =>
    cases ys with
    | nil => rfl
    | cons y t => simp [List.takeWhile_cons, hy y rfl]
  | cons x t ih =>
    have hpx : p x = true := hx x (by simp)
    simp only [List.cons_append, List.takeWhile_cons, hpx, if_true]
    rw [ih (fun c hc => hx c (by simp [hc]))]

/-- `dropWhile` counterpart of `takeWhile_append_eq`. -/
theorem dropWhile_append_eq (p : Char → Bool) (xs ys : List Char)
    (hx : ∀ c ∈ xs, p c = true) (hy : ∀ c, ys.head? = some c → p c = false) :
    (xs ++ ys).dropWhile p = ys := by
  induction xs with
  | nil =>
    cases ys with
    | nil => rfl
    | cons y t => simp [List.dropWhile_cons, hy y rfl]
  | cons x t ih =>
    have hpx : p x = true := hx x (by simp)
    simp only [List.cons_append, List.dropWhile_cons, hpx, if_true]
    exact ih (fun c hc => hx c (by simp [hc]))

/-- `dropWhile` consumes a list all of whose elements satisfy the predicate. -/
theorem dropWhile_all (p : Char → Bool) (xs : List Char)
    (hx : ∀ c ∈ xs, p c = true) : xs.dropWhile p = [] := by
  induction xs with
  | nil => rfl
  | cons x t ih =>
    have hpx : p x = true := hx x (by simp)
    simp only [List.dropWhile_cons, hpx, if_true]
    exact ih (fun c hc => hx c (by simp [hc]))

/-- `dropWhile` is the identity on a list none of whose elements satisfy the
predicate. -/
theorem dropWhile_all_false (p : Char → Bool) (xs : List Char)
    (hx : ∀ c ∈ xs, p c = false) : xs.dropWhile p = xs := by
  cases xs with
  | nil => rfl
  | cons x t => simp [List.dropWhile_cons, hx x (by simp)]

/-- `stripQuotes` is the identity on quote-free text. -/
theorem stripQuotes_eq_self (cs : List Char) (h : ∀ c ∈ cs, isQuoteChar c = false) :
    stripQuotes cs = cs := by
  unfold stripQuotes
  rw [dropWhile_all_false _ _ h,
      dropWhile_all_false _ _ (fun c hc => h c (List.mem_reverse.mp hc))]
  exact List.reverse_reverse cs

/-! ### Number-literal lemmas -/

/-- A well-formed literal's text starts with a non-space, non-quote character
(a digit or the minus sign). -/
theorem render_shape (n : NumLit) (hwf : n.wf) :
    ∃ c cs, n.render = c :: cs ∧ isPySpace c = false ∧ isQuoteChar c = false := by
  obtain ⟨hip, hipd, -⟩ := hwf
  obtain ⟨d, ds, hd⟩ : ∃ d ds, n.ip = d :: ds := by
    cases hip2 : n.ip with
    | nil => exact absurd hip2 hip
    | cons d ds => exact ⟨d, ds, rfl⟩
  have hdd : pyDigit d = true := hipd d (by rw [hd]; simp)
  cases hneg : n.neg with
  | true =>
    refine ⟨'-', n.ip ++ (match n.fp with | none => [] | some f => '.' :: f),
            ?_, by decide, by decide⟩
    unfold NumLit.render
    rw [hneg]
    rfl
  | false =>
    refine ⟨d, ds ++ (match n.fp with | none => [] | some f => '.' :: f),
            ?_, digit_not_space hdd, digit_not_quote hdd⟩
    unfold NumLit.render
    rw [hneg, hd]
    rfl

/-- Every character of a well-formed literal's text is quote-free. -/
theorem render_no_quote (n : NumLit) (hwf : n.wf) :
    ∀ c ∈ n.render, isQuoteChar c = false := by
  obtain ⟨-, hipd, hfpd⟩ := hwf
  intro c hc
  unfold NumLit.render at hc
  rcases List.mem_append.mp hc with h1 | h2
  · cases hneg : n.neg with
    | true =>
      rw [hneg] at h1
      simp at h1
      subst h1
      decide
    | false =>
      rw [hneg] at h1
      simp at h1
  · rcases List.mem_append.mp h2 with h3 | h4
    · exact digit_not_quote (hipd c h3)
    · cases hfp : n.fp with
      | none =>
        rw [hfp] at h4
        simp at h4
      | some f =>
        rw [hfp] at h4
        rcases List.mem_cons.mp h4 with rfl | h5
        · decide
        · exact digit_not_quote (hfpd c (by rw [hfp]; exact h5))

/-- Parsing a well-formed literal followed by `rest`: the number group
consumes exactly the literal and yields its value, provided `rest` does not
start with a digit, nor — when the literal has no dot — with a dot. -/
theorem parseNum_render (n : NumLit) (rest : List Char) (hwf : n.wf)
    (hr1 : ∀ c, rest.head? = some c → pyDigit c = false)
    (hr2 : n.fp = none → ∀ c, rest.head? = some c → c.toNat ≠ 46) :
    parseNum (n.render ++ rest) = some (n.val, rest) := by
  obtain ⟨hip, hipd, hfpd⟩ := hwf
  obtain ⟨d, ds, hd⟩ : ∃ d ds, n.ip = d :: ds := by
    cases hip2 : n.ip with
    | nil => exact absurd hip2 hip
    | cons d ds => exact ⟨d, ds, rfl⟩
  have hdd : pyDigit d = true := hipd d (by rw [hd]; simp)
  cases hfp : n.fp with
  | none =>
    have hrender : n.render ++ rest = (if n.neg then ['-'] else []) ++ (n.ip ++ rest) := by
      unfold NumLit.render
      rw [hfp]
      simp [List.append_assoc]
    have hsign : parseSign (n.render ++ rest) = (n.neg, n.ip ++ rest) := by
      rw [hrender]
      cases hneg : n.neg with
      | true =>
        rw [if_pos rfl]
        show (if ('-').toNat = 45 then ((true : Bool), n.ip ++ rest)
              else (false, '-' :: (n.ip ++ rest))) = (true, n.ip ++ rest)
        rw [if_pos (by decide)]
      | false =>
        rw [if_neg (by decide)]
        rw [hd]
        show (if d.toNat = 45 then ((true : Bool), ds ++ rest)
              else (false, d :: (ds ++ rest))) = (false, (d :: ds) ++ rest)
        rw [if_neg (digit_ne_45 hdd)]
        rfl
    have htw : (n.ip ++ rest).takeWhile pyDigit = n.ip :=
      takeWhile_append_eq pyDigit n.ip rest hipd hr1
    have hdw : (n.ip ++ rest).dropWhile pyDigit = rest :=
      dropWhile_append_eq pyDigit n.ip rest hipd hr1
    have hval : n.val = litVal n.neg n.ip [] := by
      unfold NumLit.val
      rw [hfp]
      rfl
    unfold parseNum
    dsimp only
    rw [hsign]
    dsimp only
    rw [htw, hdw, if_neg hip]
    cases rest with
    | nil =>
      dsimp only
      rw [hval]
    | cons c t =>
      dsimp only
      rw [if_neg (hr2 hfp c rfl), hval]
  | some f =>
    have hf : ∀ c ∈ f, pyDigit c = true := by
      intro c hc
      exact hfpd c (by rw [hfp]; exact hc)
    have hrender : n.render ++ rest
        = (if n.neg then ['-'] else []) ++ (n.ip ++ ('.' :: (f ++ rest))) := by
      unfold NumLit.render
      rw [hfp]
      simp [List.append_assoc]
    have hsign : parseSign (n.render ++ rest) = (n.neg, n.ip ++ ('.' :: (f ++ rest))) := by
      rw [hrender]
      cases hneg : n.neg with
      | true =>
        rw [if_pos rfl]
        show (if ('-').toNat = 45 then ((true : Bool), n.ip ++ ('.' :: (f ++ rest)))
              else (false, '-' :: (n.ip ++ ('.' :: (f ++ rest)))))
            = (true, n.ip ++ ('.' :: (f ++ rest)))
        rw [if_pos (by decide)]
      | false =>
        rw [if_neg (by decide)]
        rw [hd]
        show (if d.toNat = 45 then ((true : Bool), ds ++ ('.' :: (f ++ rest)))
              else (false, d :: (ds ++ ('.' :: (f ++ rest)))))
            = (false, (d :: ds) ++ ('.' :: (f ++ rest)))
        rw [if_neg (digit_ne_45 hdd)]
        rfl
    have hdot : ∀ c, ('.' :: (f ++ rest)).head? = some c → pyDigit c = false := by
      intro c hc
      simp at hc
      subst hc
      decide
    have htw : (n.ip ++ ('.' :: (f ++ rest))).takeWhile pyDigit = n.ip :=
      takeWhile_append_eq pyDigit _ _ hipd hdot
    have hdw : (n.ip ++ ('.' :: (f ++ rest))).dropWhile pyDigit = '.' :: (f ++ rest) :=
      dropWhile_append_eq pyDigit _ _ hipd hdot
    have htwf : (f ++ rest).takeWhile pyDigit = f :=
      takeWhile_append_eq pyDigit f rest hf hr1
    have hdwf : (f ++ rest).dropWhile pyDigit = rest :=
      dropWhile_append_eq pyDigit f rest hf hr1
    have hval : n.val = litVal n.neg n.ip f := by
      unfold NumLit.val
      rw [hfp]
      rfl
    unfold parseNum
    dsimp only
    rw [hsign]
    dsimp only
    rw [htw, hdw, if_neg hip]
    dsimp only
    rw [if_pos (by decide : ('.').toNat = 46), htwf, hdwf, hval]

/-- The head of `w ++ op :: Y` with `w` all-space is a space or the operator. -/
theorem ws_cons_head (w : List Char) (op : Char) (Y : List Char) (hw : SpacesOnly w)
    (c : Char) (hc : (w ++ op :: Y).head? = some c) : isPySpace c = true ∨ c = op := by
  cases w with
  | nil =>
    simp only [List.nil_append, List.head?_cons, Option.some.injEq] at hc
    right
    exact hc.symm
  | cons x t =>
    simp only [List.cons_append, List.head?_cons, Option.some.injEq] at hc
    left
    exact hc ▸ hw x (by simp)

/-- The head of an all-space list is not a digit. -/
theorem spaces_head_not_digit (w : List Char) (hw : SpacesOnly w) :
    ∀ c, w.head? = some c → pyDigit c = false := by
  intro c hc
  cases w with
  | nil => simp at hc
  | cons x t =>
    simp only [List.head?_cons, Option.some.injEq] at hc
    exact hc ▸ space_not_digit (hw x (by simp))

/-- The head of an all-space list is not the dot. -/
theorem spaces_head_not_dot (w : List Char) (hw : SpacesOnly w) :
    ∀ c, w.head? = some c → c.toNat ≠ 46 := by
  intro c hc
  cases w with
  | nil => simp at hc
  | cons x t =>
    simp only [List.head?_cons, Option.some.injEq] at hc
    exact hc ▸ space_not_dot (hw x (by simp))

/-- The regex accepts every well-formed input and yields the two literal
values and the operator. -/
theorem parseExpr_wfRender (w0 w1 w2 w3 : List Char) (n1 n2 : NumLit) (op : Char)
    (h0 : SpacesOnly w0) (h1 : SpacesOnly w1) (h2 : SpacesOnly w2) (h3 : SpacesOnly w3)
    (hn1 : n1.wf) (hn2 : n2.wf) (hop : op ∈ opChars) :
    parseExpr (wfRender w0 n1 w1 op w2 n2 w3) = some (n1.val, op, n2.val) := by
  obtain ⟨hopd, hops, hopdot, -⟩ := opChar_facts hop
  obtain ⟨c1, cs1, hc1, hc1s, -⟩ := render_shape n1 hn1
  obtain ⟨c2, cs2, hc2, hc2s, -⟩ := render_shape n2 hn2
  have e1 : (wfRender w0 n1 w1 op w2 n2 w3).dropWhile isPySpace
      = n1.render ++ (w1 ++ (op :: (w2 ++ (n2.render ++ w3)))) := by
    unfold wfRender
    refine dropWhile_append_eq _ _ _ h0 ?_
    intro c hc
    rw [hc1] at hc
    simp only [List.cons_append, List.head?_cons, Option.some.injEq] at hc
    exact hc ▸ hc1s
  have e2 : parseNum (n1.render ++ (w1 ++ (op :: (w2 ++ (n2.render ++ w3)))))
      = some (n1.val, w1 ++ (op :: (w2 ++ (n2.render ++ w3)))) := by
    refine parseNum_render n1 _ hn1 ?_ ?_
    · intro c hc
      rcases ws_cons_head w1 op _ h1 c hc with hs | rfl
      · exact space_not_digit hs
      · exact hopd
    · intro _ c hc
      rcases ws_cons_head w1 op _ h1 c hc with hs | rfl
      · exact space_not_dot hs
      · exact hopdot
  have e3 : (w1 ++ (op :: (w2 ++ (n2.render ++ w3)))).dropWhile isPySpace
      = op :: (w2 ++ (n2.render ++ w3)) := by
    refine dropWhile_append_eq _ _ _ h1 ?_
    intro c hc
    simp only [List.head?_cons, Option.some.injEq] at hc
    exact hc ▸ hops
  have e5 : (w2 ++ (n2.render ++ w3)).dropWhile isPySpace = n2.render ++ w3 := by
    refine dropWhile_append_eq _ _ _ h2 ?_
    intro c hc
    rw [hc2] at hc
    simp only [List.cons_append, List.head?_cons, Option.some.injEq] at hc
    exact hc ▸ hc2s
  have e6 : parseNum (n2.render ++ w3) = some (n2.val, w3) :=
    parseNum_render n2 w3 hn2 (spaces_head_not_digit w3 h3)
      (fun _ => spaces_head_not_dot w3 h3)
  have e7 : w3.dropWhile isPySpace = [] := dropWhile_all _ _ h3
  unfold parseExpr
  rw [e1, e2]
  dsimp only
  rw [e3]
  dsimp only
  rw [if_pos hop, e5, e6]
  dsimp only
  rw [e7, if_pos rfl]

/-- A well-formed input contains no quote characters, so `strip` leaves it
unchanged. -/
theorem wfRender_no_quote (w0 w1 w2 w3 : List Char) (n1 n2 : NumLit) (op : Char)
    (h0 : SpacesOnly w0) (h1 : SpacesOnly w1) (h2 : SpacesOnly w2) (h3 : SpacesOnly w3)
    (hn1 : n1.wf) (hn2 : n2.wf) (hop : op ∈ opChars) :
    ∀ c ∈ wfRender w0 n1 w1 op w2 n2 w3, isQuoteChar c = false := by
  intro c hc
  unfold wfRender at hc
  rcases List.mem_append.mp hc with h | h
  · exact space_not_quote (h0 c h)
  rcases List.mem_append.mp h with h | h
  · exact render_no_quote n1 hn1 c h
  rcases List.mem_append.mp h with h | h
  · exact space_not_quote (h1 c h)
  rcases List.mem_cons.mp h with rfl | h
  · exact (opChar_facts hop).2.2.2
  rcases List.mem_append.mp h with h | h
  · exact space_not_quote (h2 c h)
  rcases List.mem_append.mp h with h | h
  · exact render_no_quote n2 hn2 c h
  · exact space_not_quote (h3 c h)

/-- C10: the calculator tools always return a value (a number or an error
string) and never raise: (1) `calculator` returns a number or an error string
for every input; (2) an input not matching the regex yields the format error
string; (3) every well-formed input made of two literals and an operator in
`+ - * /` (with nonzero divisor for `/`) yields the exact arithmetic result;
(4) a well-formed division with zero divisor yields the division error string
rather than raising; (5) `calculator_num` on undecodable JSON yields an error
string; (6) a decoded object missing the `a`, `b` or `operation` key yields
an error string; (7) numeric `a` and `b` with a string operation among
`+ - * /` yield the exact arithmetic result, with the division-by-zero error
string when dividing by zero. -/
theorem C10_calculator_tools :
    (∀ s : String, (∃ q, calculator s = CalcResult.num q) ∨
       (∃ m, calculator s = CalcResult.err m)) ∧
    (∀ s : String, parseExpr (stripQuotes s.toList) = none →
       calculator s = CalcResult.err fmtErrMsg) ∧
    (∀ w0 n1 w1 op w2 n2 w3, SpacesOnly w0 → SpacesOnly w1 → SpacesOnly w2 →
       SpacesOnly w3 → NumLit.wf n1 → NumLit.wf n2 → op ∈ opChars →
       (op = '/' → NumLit.val n2 ≠ 0) →
       calculator (String.mk (wfRender w0 n1 w1 op w2 n2 w3))
         = CalcResult.num (applyOp op n1.val n2.val)) ∧
    (∀ w0 n1 w1 w2 n2 w3, SpacesOnly w0 → SpacesOnly w1 → SpacesOnly w2 →
       SpacesOnly w3 → NumLit.wf n1 → NumLit.wf n2 → NumLit.val n2 = 0 →
       calculator (String.mk (wfRender w0 n1 w1 '/' w2 n2 w3))
         = CalcResult.err divErrMsg) ∧
    (∀ loads data, loads data = none →
       calculator_num loads data
         = CalcResult.err (numToolErrPrefix ++ "JSONDecodeError")) ∧
    (∀ loads data params, loads data = some params →
       (lookupKey params "a" = none ∨ lookupKey params "b" = none ∨
        lookupKey params "operation" = none) →
       calculator_num loads data = CalcResult.err (numToolErrPrefix ++ "KeyError")) ∧
    (∀ loads data params qa qb o, loads data = some params →
       lookupKey params "a" = some (JVal.num qa) →
       lookupKey params "b" = some (JVal.num qb) →
       lookupKey params "operation" = some (JVal.str o) →
       ((o = "+" → calculator_num loads data = CalcResult.num (qa + qb)) ∧
        (o = "-" → calculator_num loads data = CalcResult.num (qa - qb)) ∧
        (o = "*" → calculator_num loads data = CalcResult.num (qa * qb)) ∧
        (o = "/" → qb ≠ 0 → calculator_num loads data = CalcResult.num (qa / qb)) ∧
        (o = "/" → qb = 0 → calculator_num loads data = CalcResult.err divErrMsg))) := by
  refine ⟨?_, ?_, ?_, ?_, ?_, ?_, ?_⟩
  · intro s
    unfold calculator
    cases parseExpr (stripQuotes s.toList) with
    | none => exact Or.inr ⟨_, rfl⟩
    | some t =>
      obtain ⟨a, op, b⟩ := t
      dsimp only
      by_cases hp : op = '+'
      · rw [if_pos hp]
        exact Or.inl ⟨_, rfl⟩
      rw [if_neg hp]
      by_cases hs : op = '-'
      · rw [if_pos hs]
        exact Or.inl ⟨_, rfl⟩
      rw [if_neg hs]
      by_cases hm : op = '*'
      · rw [if_pos hm]
        exact Or.inl ⟨_, rfl⟩
      rw [if_neg hm]
      by_cases hd : op = '/'
      · rw [if_pos hd]
        by_cases hz : b = 0
        · rw [if_pos hz]
          exact Or.inr ⟨_, rfl⟩
        · rw [if_neg hz]
          exact Or.inl ⟨_, rfl⟩
      · rw [if_neg hd]
        exact Or.inr ⟨_, rfl⟩
  · intro s hp
    unfold calculator
    rw [hp]
  · intro w0 n1 w1 op w2 n2 w3 h0 h1 h2 h3 hn1 hn2 hop hdiv
    have hq := wfRender_no_quote w0 w1 w2 w3 n1 n2 op h0 h1 h2 h3 hn1 hn2 hop
    unfold calculator
    rw [show (String.mk (wfRender w0 n1 w1 op w2 n2 w3)).toList
          = wfRender w0 n1 w1 op w2 n2 w3 from rfl,
        stripQuotes_eq_self _ hq,
        parseExpr_wfRender w0 w1 w2 w3 n1 n2 op h0 h1 h2 h3 hn1 hn2 hop]
    dsimp only
    simp only [opChars, List.mem_cons, List.not_mem_nil, or_false] at hop
    rcases hop with rfl | rfl | rfl | rfl
    · rw [if_pos rfl]
      unfold applyOp
      rw [if_pos rfl]
    · rw [if_neg (by decide), if_pos rfl]
      unfold applyOp
      rw [if_neg (by decide), if_pos rfl]
    · rw [if_neg (by decide), if_neg (by decide), if_pos rfl]
      unfold applyOp
      rw [if_neg (by decide), if_neg (by decide), if_pos rfl]
    · rw [if_neg (by decide), if_neg (by decide), if_neg (by decide), if_pos rfl,
          if_neg (hdiv rfl)]
      unfold applyOp
      rw [if_neg (by decide), if_neg (by decide), if_neg (by decide)]
  · intro w0 n1 w1 w2 n2 w3 h0 h1 h2 h3 hn1 hn2 hz
    have hq := wfRender_no_quote w0 w1 w2 w3 n1 n2 '/' h0 h1 h2 h3 hn1 hn2 (by decide)
    unfold calculator
    rw [show (String.mk (wfRender w0 n1 w1 '/' w2 n2 w3)).toList
          = wfRender w0 n1 w1 '/' w2 n2 w3 from rfl,
        stripQuotes_eq_self _ hq,
        parseExpr_wfRender w0 w1 w2 w3 n1 n2 '/' h0 h1 h2 h3 hn1 hn2 (by decide)]
    dsimp only
    rw [if_neg (by decide), if_neg (by decide), if_neg (by decide), if_pos rfl,
        if_pos hz]
  · intro loads data hl
    unfold calculator_num
    rw [hl]
  · intro loads data params hl hmiss
    unfold calculator_num
    rw [hl]
    dsimp only
    cases hka : lookupKey params "a" with
    | none => rfl
    | some a =>
      cases hkb : lookupKey params "b" with
      | none => rfl
      | some b =>
        cases hkc : lookupKey params "operation" with
        | none => rfl
        | some o =>
          rcases hmiss with h | h | h
          · rw [hka] at h
            exact absurd h (by simp)
          · rw [hkb] at h
            exact absurd h (by simp)
          · rw [hkc] at h
            exact absurd h (by simp)
  · intro loads data params qa qb o hl hka hkb hkc
    unfold calculator_num
    rw [hl]
    dsimp only
    rw [hka, hkb, hkc]
    dsimp only
    refine ⟨?_, ?_, ?_, ?_, ?_⟩
    · intro ho
      subst ho
      rw [if_pos rfl]
      rfl
    · intro ho
      subst ho
      rw [if_neg (by decide), if_pos rfl]
      rfl
    · intro ho
      subst ho
      rw [if_neg (by decide), if_neg (by decide), if_pos rfl]
      rfl
    · intro ho hqb
      subst ho
      rw [if_neg (by decide), if_neg (by decide), if_neg (by decide), if_pos rfl]
      unfold jvalDiv
      rw [if_neg (by simp [hqb])]
    · intro ho hqb
      subst ho
      rw [if_neg (by decide), if_neg (by decide), if_neg (by decide), if_pos rfl]
      unfold jvalDiv
      rw [if_pos (by rw [hqb])]

/-- C10 witness: the claim theorem applied at concrete inputs — `calculator`
on the rendering of "5 + 5" returns the number 10, `calculator_num` on a
decoded object a = 7, b = 2, operation = "*" returns 14, and a failed JSON
decode returns an error string. -/
theorem C10_witness :
    calculator (String.mk (wfRender [] ⟨false, ['5'], none⟩ [' '] '+' [' ']
      ⟨false, ['5'], none⟩ [])) = CalcResult.num 10 ∧
    calculator_num (fun _ => some [("a", JVal.num 7), ("b", JVal.num 2),
      ("operation", JVal.str "*")]) "data" = CalcResult.num 14 ∧
    calculator_num (fun _ => none) "oops"
      = CalcResult.err (numToolErrPrefix ++ "JSONDecodeError") := by
  have hd5 : digitsVal ['5'] = 5 := by decide
  have hv : NumLit.val ⟨false, ['5'], none⟩ = 5 := by
    unfold NumLit.val litVal
    rw [show (Option.getD (none : Option (List Char)) []) = [] from rfl, hd5]
    norm_num [digitsVal]
  refine ⟨?_, ?_, ?_⟩
  · have h := C10_calculator_tools.2.2.1 [] ⟨false, ['5'], none⟩ [' '] '+' [' ']
      ⟨false, ['5'], none⟩ [] (by decide) (by decide) (by decide) (by decide)
      (by decide) (by decide) (by decide) (fun hc => absurd hc (by decide))
    rw [h, hv]
    unfold applyOp
    rw [if_pos rfl]
    norm_num
  · have h := (C10_calculator_tools.2.2.2.2.2.2 (fun _ => some [("a", JVal.num 7),
      ("b", JVal.num 2), ("operation", JVal.str "*")]) "data" _ 7 2 "*"
      rfl rfl rfl rfl).2.2.1 rfl
    rw [h]
    norm_num
  · exact C10_calculator_tools.2.2.2.2.1 (fun _ => none) "oops" rfl
